import Mathlib

/-!
Shallow embedding of the `approximately` Rust crate (src/lib.rs together
with examples/image.rs) and verification of its specification.

IEEE-754 binary floating point data are modelled by the inductive type
`Fl`: a value is NaN, a signed infinity, or a finite value carried as an
exact rational.  Arithmetic on finite values follows the hardware:
results are rounded to the nearest representable value, ties to even, at
the precision of the format (24 significant bits for `f32`, 53 for
`f64`).  Subnormal underflow and overflow to infinity are not modelled;
every number appearing in this development is well inside the normal
range of both formats.  Decimal literals of the Rust source are mapped
to their IEEE values by the same rounding function.
-/

/-- Numerator of the fraction `n / d` (with `n, d > 0`) scaled so that the
scaled quotient lies in `[2 ^ prec, 2 ^ (prec + 1))`: the binary exponent is
guessed from the integer logarithms of `n` and `d` and corrected by one when
the guess is off. -/
def scaleNum (prec n d : Nat) : Nat :=
  let N0 := n * 2 ^ (prec + Nat.log2 d)
  let D0 := d * 2 ^ Nat.log2 n
  if N0 < 2 ^ prec * D0 then 2 * N0 else N0

/-- Denominator matching `scaleNum`. -/
def scaleDen (prec n d : Nat) : Nat :=
  let N0 := n * 2 ^ (prec + Nat.log2 d)
  let D0 := d * 2 ^ Nat.log2 n
  if N0 < 2 ^ prec * D0 then D0
  else if 2 ^ (prec + 1) * D0 ≤ N0 then 2 * D0 else D0

/-- Nearest integer to `N / D`, ties to even. -/
def mantissaRound (N D : Nat) : Nat :=
  if 2 * (N % D) < D then N / D
  else if D < 2 * (N % D) then N / D + 1
  else if N / D % 2 = 0 then N / D else N / D + 1

/-- Round a positive rational to the nearest binary floating point number
with `prec + 1` significant bits, ties to even.  `scaleNum`/`scaleDen`
produce the input scaled into `[2 ^ prec, 2 ^ (prec + 1))`, `mantissaRound`
the rounded mantissa; multiplying by `q * D / N` (which is exactly the power
of two `2 ^ (e - prec)` for the binary exponent `e` of `q`) places the
mantissa back at the right magnitude. -/
def roundPos (prec : Nat) (q : ℚ) : ℚ :=
  (mantissaRound (scaleNum prec q.num.toNat q.den) (scaleDen prec q.num.toNat q.den) : ℚ)
    * q * (scaleDen prec q.num.toNat q.den : ℚ) / (scaleNum prec q.num.toNat q.den : ℚ)

/-- Round a rational to the nearest binary floating point number with
`prec + 1` significant bits, ties to even; sign-symmetric, zero to zero. -/
def roundQ (prec : Nat) (q : ℚ) : ℚ :=
  if 0 < q then roundPos prec q
  else if q < 0 then -roundPos prec (-q) else 0

/-- An IEEE-754 floating point datum: NaN, a signed infinity (`inf true` is
positive infinity, `inf false` negative infinity), or a finite value carried
as an exact rational. -/
inductive Fl where
  | nan : Fl
  | inf : Bool → Fl
  | finite : ℚ → Fl
deriving DecidableEq

/-- IEEE subtraction at `prec + 1` significant bits: a NaN operand gives
NaN, infinities of equal sign cancel to NaN, an infinite operand otherwise
dominates, and the exact difference of finite operands is rounded. -/
def Fl.sub (prec : Nat) : Fl → Fl → Fl
  | nan, _ => nan
  | _, nan => nan
  | inf s, inf t => if s = t then nan else inf s
  | inf s, finite _ => inf s
  | finite _, inf t => inf (!t)
  | finite p, finite q => finite (roundQ prec (p - q))

/-- IEEE absolute value. -/
def Fl.abs : Fl → Fl
  | nan => nan
  | inf _ => inf true
  | finite q => finite |q|

/-- IEEE comparison `a <= b`: false whenever an operand is NaN. -/
def Fl.le : Fl → Fl → Bool
  | nan, _ => false
  | _, nan => false
  | inf s, inf t => !s || t
  | inf s, finite _ => !s
  | finite _, inf t => t
  | finite p, finite q => decide (p ≤ q)

/-- IEEE comparison `a >= b`: false whenever an operand is NaN. -/
def Fl.ge (a b : Fl) : Bool := Fl.le b a

/-- IEEE division at `prec + 1` significant bits (only the finite cases are
exercised by this development): NaN propagates, `inf / inf` and `0 / 0` are
NaN, a nonzero finite value divided by zero is a signed infinity, and the
exact quotient of finite operands is rounded. -/
def Fl.div (prec : Nat) : Fl → Fl → Fl
  | nan, _ => nan
  | _, nan => nan
  | inf _, inf _ => nan
  | inf s, finite q => inf (s == decide (0 ≤ q))
  | finite _, inf _ => finite 0
  | finite p, finite q =>
    if q = 0 then (if p = 0 then nan else inf (decide (0 < p)))
    else finite (roundQ prec (p / q))

/-- The `f32` value of the literal `1e-3` of src/lib.rs. -/
def tol32 : ℚ := roundQ 23 (1 / 1000)

/-- The `f64` value of the literal `1e-6` of src/lib.rs. -/
def tol64 : ℚ := roundQ 52 (1 / 1000000)

/-- The impl of `ApproxEq::approx` for `f32` (src/lib.rs, lines 26-33):
`(self - other.borrow()).abs() <= 1e-3`. -/
def F32.approx (a b : Fl) : Bool :=
  Fl.le (Fl.abs (Fl.sub 23 a b)) (Fl.finite tol32)

/-- The impl of `ApproxEq::approx` for `f64` (src/lib.rs, lines 35-42):
`(self - other.borrow()).abs() <= 1e-6`. -/
def F64.approx (a b : Fl) : Bool :=
  Fl.le (Fl.abs (Fl.sub 52 a b)) (Fl.finite tol64)

/-- The impl of `ApproxEq::approx` for `[A]` (src/lib.rs, lines 44-59),
generic over the element comparison `ap`: false when the lengths differ,
otherwise every positional pair of the zip must be approx-equal. -/
def Slice.approx {A : Type} (ap : A → A → Bool) (xs ys : List A) : Bool :=
  if xs.length ≠ ys.length then false
  else (xs.zip ys).all fun p => ap p.1 p.2

/-- The impl of `ApproxEq::approx` for `Option<A>` (src/lib.rs, lines
61-75), generic over the element comparison `ap`. -/
def Opt.approx {A : Type} (ap : A → A → Bool) : Option A → Option A → Bool
  | some a, some b => ap a b
  | none, none => true
  | _, _ => false

/-- The `assert_approx` method (src/lib.rs, line 21-23 default and the
per-impl overrides, which differ from the default only in the Debug
formatting they apply): `assert!(self.approx(other.clone()), "{self:?} !=
{other:?}")`.  A panic is modelled as `Except.error` carrying the panic
message; `fmt` is the Debug formatting the respective impl uses. -/
def assertApprox {A : Type} (fmt : A → String) (ap : A → A → Bool) (a b : A) :
    Except String Unit :=
  if ap a b then Except.ok () else Except.error (fmt a ++ " != " ++ fmt b)

/-- The `f32` value of the literal `0.8` of examples/image.rs. -/
def lit08 : ℚ := roundQ 23 (4 / 5)

/-- An image as in examples/image.rs: a sequence of bytes. -/
abbrev Image : Type := List Nat

/-- The consumer impl of `ApproxEq::approx` for `Image` (examples/image.rs,
lines 8-18): count the positionally equal byte pairs of the zip of the two
byte sequences, divide (in `f32`) by the length of `self`, and compare
against the literal `0.8` with `>=`. -/
def Image.approx (a b : Image) : Bool :=
  Fl.ge
    (Fl.div 23
      (Fl.finite (roundQ 23 (((a.zip b).filter fun p => p.1 == p.2).length : ℚ)))
      (Fl.finite (roundQ 23 (a.length : ℚ))))
    (Fl.finite lit08)

/-- The `f32` values of the literals `1.0001` and `1.001` of the test
`test_approx_eq` of the crate (src/lib.rs, lines 101-111). -/
def lit32_10001 : ℚ := roundQ 23 (10001 / 10000)

/-- The `f32` value of the literal `1.001` of the tests of the crate. -/
def lit32_1001 : ℚ := roundQ 23 (1001 / 1000)

/-- The `f64` value of the literal `1.000001` of the tests of the crate. -/
def lit64_1000001 : ℚ := roundQ 52 (1000001 / 1000000)

/-- The `f64` value of the literal `1.00001` of the tests of the crate. -/
def lit64_100001 : ℚ := roundQ 52 (100001 / 100000)

/-! Evaluation infrastructure: concrete values of `roundQ` are established
by exhibiting the scaled numerator, denominator and rounded mantissa and
checking each piece by computation. -/

/-- Characterisation of `Nat.log2` used to evaluate it at literals. -/
theorem natLog2_eq {n k : Nat} (h1 : 2 ^ k ≤ n) (h2 : n < 2 ^ (k + 1)) :
    Nat.log2 n = k := by
  rw [Nat.log2_eq_log_two]
  exact Nat.log_eq_of_pow_le_of_lt_pow h1 h2

/-- Stagewise evaluation of `roundQ` on a positive rational. -/
theorem roundQ_pos_eval (prec : Nat) (q : ℚ) (n d N D m : Nat)
    (hq : 0 < q) (hn : q.num.toNat = n) (hd : q.den = d)
    (hN : scaleNum prec n d = N) (hD : scaleDen prec n d = D)
    (hm : mantissaRound N D = m) :
    roundQ prec q = (m : ℚ) * q * (D : ℚ) / (N : ℚ) := by
  unfold roundQ roundPos
  rw [if_pos hq, hn, hd, hN, hD, hm]

/-- The rounding function is odd, as round-to-nearest-even is. -/
theorem roundQ_neg (prec : Nat) (q : ℚ) : roundQ prec (-q) = -roundQ prec q := by
  unfold roundQ
  rcases lt_trichotomy q 0 with h | h | h
  · rw [if_pos (neg_pos.mpr h), if_neg (not_lt.mpr h.le), if_pos h, neg_neg]
  · rw [h]
    norm_num
  · rw [if_neg (not_lt.mpr (neg_nonpos.mpr h.le)), if_pos (neg_lt_zero.mpr h),
      if_pos h, neg_neg]

/-- Rounding fixes zero. -/
theorem roundQ_zero (prec : Nat) : roundQ prec 0 = 0 := by
  unfold roundQ
  norm_num

/-- The value of the `f32` literal `1e-3`. -/
theorem tol32_eq : tol32 = 8589935 / 8589934592 := by
  have l1 : Nat.log2 1 = 0 := natLog2_eq (by norm_num) (by norm_num)
  have l2 : Nat.log2 1000 = 9 := natLog2_eq (by norm_num) (by norm_num)
  show roundQ 23 (1 / 1000) = 8589935 / 8589934592
  rw [roundQ_pos_eval 23 (1 / 1000) 1 1000 8589934592 1000 8589935
    (by norm_num) (by norm_num [Int.toNat_ofNat]; try decide) (by norm_num)
    (by norm_num [scaleNum, l1, l2]) (by norm_num [scaleDen, l1, l2])
    (by norm_num [mantissaRound])]
  norm_num

/-- The value of the `f64` literal `1e-6`. -/
theorem tol64_eq : tol64 = 4722366482869645 / 4722366482869645213696 := by
  have l1 : Nat.log2 1 = 0 := natLog2_eq (by norm_num) (by norm_num)
  have l2 : Nat.log2 1000000 = 19 := natLog2_eq (by norm_num) (by norm_num)
  show roundQ 52 (1 / 1000000) = 4722366482869645 / 4722366482869645213696
  rw [roundQ_pos_eval 52 (1 / 1000000) 1 1000000 4722366482869645213696 1000000
    4722366482869645
    (by norm_num) (by norm_num [Int.toNat_ofNat]; try decide) (by norm_num)
    (by norm_num [scaleNum, l1, l2]) (by norm_num [scaleDen, l1, l2])
    (by norm_num [mantissaRound])]
  norm_num

/-- The value of the `f32` literal `0.8`. -/
theorem lit08_eq : lit08 = 13421773 / 16777216 := by
  have l1 : Nat.log2 4 = 2 := natLog2_eq (by norm_num) (by norm_num)
  have l2 : Nat.log2 5 = 2 := natLog2_eq (by norm_num) (by norm_num)
  show roundQ 23 (4 / 5) = 13421773 / 16777216
  rw [roundQ_pos_eval 23 (4 / 5) 4 5 268435456 20 13421773
    (by norm_num) (by norm_num [Int.toNat_ofNat]; try decide) (by norm_num)
    (by norm_num [scaleNum, l1, l2]) (by norm_num [scaleDen, l1, l2])
    (by norm_num [mantissaRound])]
  norm_num

/-- The value of the `f32` literal `1.0001`. -/
theorem lit32_10001_eq : lit32_10001 = 8389447 / 8388608 := by
  have l1 : Nat.log2 10001 = 13 := natLog2_eq (by norm_num) (by norm_num)
  have l2 : Nat.log2 10000 = 13 := natLog2_eq (by norm_num) (by norm_num)
  show roundQ 23 (10001 / 10000) = 8389447 / 8388608
  rw [roundQ_pos_eval 23 (10001 / 10000) 10001 10000 687263486836736 81920000
    8389447
    (by norm_num) (by norm_num [Int.toNat_ofNat]; try decide) (by norm_num)
    (by norm_num [scaleNum, l1, l2]) (by norm_num [scaleDen, l1, l2])
    (by norm_num [mantissaRound])]
  norm_num

/-- The value of the `f32` literal `1.001`. -/
theorem lit32_1001_eq : lit32_1001 = 8396997 / 8388608 := by
  have l1 : Nat.log2 1001 = 9 := natLog2_eq (by norm_num) (by norm_num)
  have l2 : Nat.log2 1000 = 9 := natLog2_eq (by norm_num) (by norm_num)
  show roundQ 23 (1001 / 1000) = 8396997 / 8388608
  rw [roundQ_pos_eval 23 (1001 / 1000) 1001 1000 4299262263296 512000 8396997
    (by norm_num) (by norm_num [Int.toNat_ofNat]; try decide) (by norm_num)
    (by norm_num [scaleNum, l1, l2]) (by norm_num [scaleDen, l1, l2])
    (by norm_num [mantissaRound])]
  norm_num

/-- The value of the `f64` literal `1.000001`. -/
theorem lit64_1000001_eq : lit64_1000001 = 4503604130970123 / 4503599627370496 := by
  have l1 : Nat.log2 1000001 = 19 := natLog2_eq (by norm_num) (by norm_num)
  have l2 : Nat.log2 1000000 = 19 := natLog2_eq (by norm_num) (by norm_num)
  show roundQ 52 (1000001 / 1000000) = 4503604130970123 / 4503599627370496
  rw [roundQ_pos_eval 52 (1000001 / 1000000) 1000001 1000000
    2361185602618064041670606848 524288000000 4503604130970123
    (by norm_num) (by norm_num [Int.toNat_ofNat]; try decide) (by norm_num)
    (by norm_num [scaleNum, l1, l2]) (by norm_num [scaleDen, l1, l2])
    (by norm_num [mantissaRound])]
  norm_num

/-- The value of the `f64` literal `1.00001`. -/
theorem lit64_100001_eq : lit64_100001 = 2251822331683385 / 2251799813685248 := by
  have l1 : Nat.log2 100001 = 16 := natLog2_eq (by norm_num) (by norm_num)
  have l2 : Nat.log2 100000 = 16 := natLog2_eq (by norm_num) (by norm_num)
  show roundQ 52 (100001 / 100000) = 2251822331683385 / 2251799813685248
  rw [roundQ_pos_eval 52 (100001 / 100000) 100001 100000
    29515085665840461938425856 6553600000 4503644663366770
    (by norm_num) (by norm_num [Int.toNat_ofNat]; try decide) (by norm_num)
    (by norm_num [scaleNum, l1, l2]) (by norm_num [scaleDen, l1, l2])
    (by norm_num [mantissaRound])]
  norm_num

/-- The difference of the `f32` values of `1.0001` and `1.0000` is exactly
representable, so rounding fixes it. -/
theorem roundQ23_839 : roundQ 23 (839 / 8388608) = 839 / 8388608 := by
  have l1 : Nat.log2 839 = 9 := natLog2_eq (by norm_num) (by norm_num)
  have l2 : Nat.log2 8388608 = 23 := natLog2_eq (by norm_num) (by norm_num)
  rw [roundQ_pos_eval 23 (839 / 8388608) 839 8388608 59039376365060096
    4294967296 13746176
    (by norm_num) (by norm_num [Int.toNat_ofNat]; try decide) (by norm_num)
    (by norm_num [scaleNum, l1, l2]) (by norm_num [scaleDen, l1, l2])
    (by norm_num [mantissaRound])]
  norm_num

/-- The difference of the `f32` values of `1.001` and `1.000` is exactly
representable, so rounding fixes it. -/
theorem roundQ23_8389 : roundQ 23 (8389 / 8388608) = 8389 / 8388608 := by
  have l1 : Nat.log2 8389 = 13 := natLog2_eq (by norm_num) (by norm_num)
  have l2 : Nat.log2 8388608 = 23 := natLog2_eq (by norm_num) (by norm_num)
  rw [roundQ_pos_eval 23 (8389 / 8388608) 8389 8388608 590323394906423296
    68719476736 8590336
    (by norm_num) (by norm_num [Int.toNat_ofNat]; try decide) (by norm_num)
    (by norm_num [scaleNum, l1, l2]) (by norm_num [scaleDen, l1, l2])
    (by norm_num [mantissaRound])]
  norm_num

/-- The difference of the `f64` values of `1.000001` and `1.000000` is
exactly representable, so rounding fixes it. -/
theorem roundQ52_diff_small : roundQ 52 (4503599627 / 4503599627370496) =
    4503599627 / 4503599627370496 := by
  have l1 : Nat.log2 4503599627 = 32 := natLog2_eq (by norm_num) (by norm_num)
  have l2 : Nat.log2 4503599627370496 = 52 := natLog2_eq (by norm_num) (by norm_num)
  rw [roundQ_pos_eval 52 (4503599627 / 4503599627370496) 4503599627
    4503599627370496 91343852325666880759215772759376927916032
    19342813113834066795298816 4722366482481152
    (by norm_num) (by norm_num [Int.toNat_ofNat]; try decide) (by norm_num)
    (by norm_num [scaleNum, l1, l2]) (by norm_num [scaleDen, l1, l2])
    (by norm_num [mantissaRound])]
  norm_num

/-- The difference of the `f64` values of `1.00001` and `1.00000` is
exactly representable, so rounding fixes it. -/
theorem roundQ52_diff_large : roundQ 52 (22517998137 / 2251799813685248) =
    22517998137 / 2251799813685248 := by
  have l1 : Nat.log2 22517998137 = 34 := natLog2_eq (by norm_num) (by norm_num)
  have l2 : Nat.log2 2251799813685248 = 51 := natLog2_eq (by norm_num) (by norm_num)
  rw [roundQ_pos_eval 52 (22517998137 / 2251799813685248) 22517998137
    2251799813685248 228359630834449611501691102322389571076096
    38685626227668133590597632 5902958103625728
    (by norm_num) (by norm_num [Int.toNat_ofNat]; try decide) (by norm_num)
    (by norm_num [scaleNum, l1, l2]) (by norm_num [scaleDen, l1, l2])
    (by norm_num [mantissaRound])]
  norm_num

/-- The `f32` tolerance is itself representable, so rounding fixes it. -/
theorem roundQ23_tolval : roundQ 23 (8589935 / 8589934592) = 8589935 / 8589934592 := by
  have l1 : Nat.log2 8589935 = 23 := natLog2_eq (by norm_num) (by norm_num)
  have l2 : Nat.log2 8589934592 = 33 := natLog2_eq (by norm_num) (by norm_num)
  rw [roundQ_pos_eval 23 (8589935 / 8589934592) 8589935 8589934592
    618970049042188504924160 72057594037927936 8589935
    (by norm_num) (by norm_num [Int.toNat_ofNat]; try decide) (by norm_num)
    (by norm_num [scaleNum, l1, l2]) (by norm_num [scaleDen, l1, l2])
    (by norm_num [mantissaRound])]
  norm_num

/-- The `f64` tolerance is itself representable, so rounding fixes it. -/
theorem roundQ52_tolval : roundQ 52 (4722366482869645 / 4722366482869645213696) =
    4722366482869645 / 4722366482869645213696 := by
  have l1 : Nat.log2 4722366482869645 = 52 := natLog2_eq (by norm_num) (by norm_num)
  have l2 : Nat.log2 4722366482869645213696 = 72 := natLog2_eq (by norm_num) (by norm_num)
  rw [roundQ_pos_eval 52 (4722366482869645 / 4722366482869645213696)
    4722366482869645 4722366482869645213696
    100433627766186887676561338175268544640806430252728320
    21267647932558653966460912964485513216 4722366482869645
    (by norm_num) (by norm_num [Int.toNat_ofNat]; try decide) (by norm_num)
    (by norm_num [scaleNum, l1, l2]) (by norm_num [scaleDen, l1, l2])
    (by norm_num [mantissaRound])]
  norm_num

/-- The byte count `4` of the image example is exact in `f32`. -/
theorem roundQ23_4 : roundQ 23 (4 : ℚ) = 4 := by
  have l1 : Nat.log2 4 = 2 := natLog2_eq (by norm_num) (by norm_num)
  have l2 : Nat.log2 1 = 0 := natLog2_eq (by norm_num) (by norm_num)
  rw [roundQ_pos_eval 23 (4 : ℚ) 4 1 33554432 4 8388608
    (by norm_num) (by norm_num [Int.toNat_ofNat]; try decide) (by norm_num)
    (by norm_num [scaleNum, l1, l2]) (by norm_num [scaleDen, l1, l2])
    (by norm_num [mantissaRound])]
  norm_num

/-- The sequence length `5` of the image example is exact in `f32`. -/
theorem roundQ23_5 : roundQ 23 (5 : ℚ) = 5 := by
  have l1 : Nat.log2 5 = 2 := natLog2_eq (by norm_num) (by norm_num)
  have l2 : Nat.log2 1 = 0 := natLog2_eq (by norm_num) (by norm_num)
  rw [roundQ_pos_eval 23 (5 : ℚ) 5 1 41943040 4 10485760
    (by norm_num) (by norm_num [Int.toNat_ofNat]; try decide) (by norm_num)
    (by norm_num [scaleNum, l1, l2]) (by norm_num [scaleDen, l1, l2])
    (by norm_num [mantissaRound])]
  norm_num

/-- The byte count `3` of the image example is exact in `f32`. -/
theorem roundQ23_3 : roundQ 23 (3 : ℚ) = 3 := by
  have l1 : Nat.log2 3 = 1 := natLog2_eq (by norm_num) (by norm_num)
  have l2 : Nat.log2 1 = 0 := natLog2_eq (by norm_num) (by norm_num)
  rw [roundQ_pos_eval 23 (3 : ℚ) 3 1 25165824 2 12582912
    (by norm_num) (by norm_num [Int.toNat_ofNat]; try decide) (by norm_num)
    (by norm_num [scaleNum, l1, l2]) (by norm_num [scaleDen, l1, l2])
    (by norm_num [mantissaRound])]
  norm_num

/-- The `f32` quotient of `3.0` by `5.0`. -/
theorem roundQ23_35 : roundQ 23 (3 / 5) = 5033165 / 8388608 := by
  have l1 : Nat.log2 3 = 1 := natLog2_eq (by norm_num) (by norm_num)
  have l2 : Nat.log2 5 = 2 := natLog2_eq (by norm_num) (by norm_num)
  rw [roundQ_pos_eval 23 (3 / 5) 3 5 100663296 10 10066330
    (by norm_num) (by norm_num [Int.toNat_ofNat]; try decide) (by norm_num)
    (by norm_num [scaleNum, l1, l2]) (by norm_num [scaleDen, l1, l2])
    (by norm_num [mantissaRound])]
  norm_num

/-! Helper characterisations of the scalar comparison. -/

/-- The scalar comparison pattern of both float impls, characterised over
the whole value domain: it accepts exactly the pairs of finite values whose
rounded difference lies within the inclusive tolerance band. -/
theorem scalar_approx_aux (prec : Nat) (tol : ℚ) (a b : Fl) :
    Fl.le (Fl.abs (Fl.sub prec a b)) (Fl.finite tol) = true ↔
      ∃ p q : ℚ, a = Fl.finite p ∧ b = Fl.finite q ∧ |roundQ prec (p - q)| ≤ tol := by
  rcases a with _ | s | p <;> rcases b with _ | t | q <;>
    (try cases s) <;> (try cases t) <;>
    simp [Fl.sub, Fl.abs, Fl.le]

/-- C1: for 32-bit floats `approx` holds iff the absolute machine difference
is at most the value of `1e-3`, and for 64-bit floats iff it is at most the
value of `1e-6`; both operands must be finite, and the band is inclusive (a
pair lying exactly at tolerance distance passes, as the last two conjuncts
witness). -/
theorem scalar_approx_iff_within_tol :
    (∀ a b : Fl,
      (F32.approx a b = true ↔
        ∃ p q : ℚ, a = Fl.finite p ∧ b = Fl.finite q ∧ |roundQ 23 (p - q)| ≤ tol32) ∧
      (F64.approx a b = true ↔
        ∃ p q : ℚ, a = Fl.finite p ∧ b = Fl.finite q ∧ |roundQ 52 (p - q)| ≤ tol64)) ∧
    F32.approx (Fl.finite 0) (Fl.finite tol32) = true ∧
    F64.approx (Fl.finite 0) (Fl.finite tol64) = true := by
  refine ⟨fun a b => ⟨scalar_approx_aux 23 tol32 a b, scalar_approx_aux 52 tol64 a b⟩,
    ?_, ?_⟩
  · have h : (0 : ℚ) - 8589935 / 8589934592 = -(8589935 / 8589934592) := by ring
    simp only [F32.approx, Fl.sub, tol32_eq, h, roundQ_neg, roundQ23_tolval, Fl.abs,
      abs_neg, Fl.le, decide_eq_true_eq]
    rw [abs_of_nonneg]
    norm_num
  · have h : (0 : ℚ) - 4722366482869645 / 4722366482869645213696 =
        -(4722366482869645 / 4722366482869645213696) := by ring
    simp only [F64.approx, Fl.sub, tol64_eq, h, roundQ_neg, roundQ52_tolval, Fl.abs,
      abs_neg, Fl.le, decide_eq_true_eq]
    rw [abs_of_nonneg]
    norm_num

/-- C5: a NaN operand (on either side, including NaN against NaN) makes the
scalar `approx` return the boolean false, for both float widths. -/
theorem scalar_approx_nan_false :
    ∀ b : Fl,
      F32.approx Fl.nan b = false ∧ F32.approx b Fl.nan = false ∧
      F64.approx Fl.nan b = false ∧ F64.approx b Fl.nan = false := by
  intro b
  rcases b with _ | s | q <;>
    simp [F32.approx, F64.approx, Fl.sub, Fl.abs, Fl.le]

/-- C8: an infinite operand (on either side) makes the scalar `approx`
return false, for both float widths; in particular two unequal infinities
are never approx-equal, and approx-equality with an infinite first operand
never holds at all (even against the identical infinity, since the IEEE
difference of equal infinities is NaN). -/
theorem scalar_approx_infinite_false :
    ∀ (s : Bool) (a b : Fl),
      F32.approx (Fl.inf s) b = false ∧ F32.approx a (Fl.inf s) = false ∧
      F64.approx (Fl.inf s) b = false ∧ F64.approx a (Fl.inf s) = false := by
  intro s a b
  rcases a with _ | t | p <;> rcases b with _ | u | q <;>
    cases s <;> (try cases t) <;> (try cases u) <;>
    simp [F32.approx, F64.approx, Fl.sub, Fl.abs, Fl.le]

/-- C6: at the actual floating point values of the literals, the test
vectors of the crate evaluate as documented: `1.0000 approx 1.0001` and not
`1.000 approx 1.001` in `f32`; `1.000000 approx 1.000001` and not
`1.00000 approx 1.00001` in `f64`. -/
theorem scalar_approx_literal_examples :
    F32.approx (Fl.finite 1) (Fl.finite lit32_10001) = true ∧
    F32.approx (Fl.finite 1) (Fl.finite lit32_1001) = false ∧
    F64.approx (Fl.finite 1) (Fl.finite lit64_1000001) = true ∧
    F64.approx (Fl.finite 1) (Fl.finite lit64_100001) = false := by
  refine ⟨?_, ?_, ?_, ?_⟩
  · have h : (1 : ℚ) - lit32_10001 = -(839 / 8388608) := by
      rw [lit32_10001_eq]; norm_num
    simp only [F32.approx, Fl.sub, h, roundQ_neg, roundQ23_839, Fl.abs, abs_neg,
      Fl.le, tol32_eq, decide_eq_true_eq]
    rw [abs_of_nonneg] <;> norm_num
  · have h : (1 : ℚ) - lit32_1001 = -(8389 / 8388608) := by
      rw [lit32_1001_eq]; norm_num
    simp only [F32.approx, Fl.sub, h, roundQ_neg, roundQ23_8389, Fl.abs, abs_neg,
      Fl.le, tol32_eq, decide_eq_false_iff_not]
    rw [abs_of_nonneg] <;> norm_num
  · have h : (1 : ℚ) - lit64_1000001 = -(4503599627 / 4503599627370496) := by
      rw [lit64_1000001_eq]; norm_num
    simp only [F64.approx, Fl.sub, h, roundQ_neg, roundQ52_diff_small, Fl.abs, abs_neg,
      Fl.le, tol64_eq, decide_eq_true_eq]
    rw [abs_of_nonneg] <;> norm_num
  · have h : (1 : ℚ) - lit64_100001 = -(22517998137 / 2251799813685248) := by
      rw [lit64_100001_eq]; norm_num
    simp only [F64.approx, Fl.sub, h, roundQ_neg, roundQ52_diff_large, Fl.abs, abs_neg,
      Fl.le, tol64_eq, decide_eq_false_iff_not]
    rw [abs_of_nonneg] <;> norm_num

/-! Helper characterisations of the sequence comparison. -/

/-- Element-wise comparison over a zip, characterised positionally. -/
theorem slice_all_zip {A : Type} (ap : A → A → Bool) :
    ∀ xs ys : List A,
      (((xs.zip ys).all fun p => ap p.1 p.2) = true ↔
        ∀ (i : Nat) (hx : i < xs.length) (hy : i < ys.length),
          ap (xs.get ⟨i, hx⟩) (ys.get ⟨i, hy⟩) = true) := by
  intro xs
  induction xs with
  | nil =>
    intro ys
    constructor
    · intro _ i hx hy
      exact absurd hx (Nat.not_lt_zero i)
    · intro _
      rfl
  | cons x xs ih =>
    intro ys
    cases ys with
    | nil =>
      constructor
      · intro _ i hx hy
        exact absurd hy (Nat.not_lt_zero i)
      · intro _
        rfl
    | cons y ys =>
      rw [List.zip_cons_cons, List.all_cons, Bool.and_eq_true, ih ys]
      constructor
      · rintro ⟨h1, h2⟩ i hx hy
        cases i with
        | zero => exact h1
        | succ i => exact h2 i (Nat.lt_of_succ_lt_succ hx) (Nat.lt_of_succ_lt_succ hy)
      · intro h
        refine ⟨h 0 (Nat.succ_pos _) (Nat.succ_pos _), fun i hx hy => ?_⟩
        exact h (i + 1) (Nat.succ_lt_succ hx) (Nat.succ_lt_succ hy)

/-- C2: two sequences are approx-equal exactly when they have equal length
and every positionally corresponding pair of elements is approx-equal under
the element comparison; in particular sequences of different lengths are
never approx-equal. -/
theorem slice_approx_iff_matching :
    ∀ {A : Type} (ap : A → A → Bool) (xs ys : List A),
      Slice.approx ap xs ys = true ↔
        xs.length = ys.length ∧
          ∀ (i : Nat) (hx : i < xs.length) (hy : i < ys.length),
            ap (xs.get ⟨i, hx⟩) (ys.get ⟨i, hy⟩) = true := by
  intro A ap xs ys
  unfold Slice.approx
  by_cases h : xs.length = ys.length
  · rw [if_neg (by omega), slice_all_zip]
    exact ⟨fun hp => ⟨h, hp⟩, fun hp => hp.2⟩
  · rw [if_pos (by omega)]
    constructor
    · intro hfalse
      simp at hfalse
    · intro hp
      exact absurd hp.1 h

/-- C3: optional values compare by presence: two present values delegate to
the element comparison, two absent values are approx-equal, and mixed
presence is never approx-equal. -/
theorem option_approx_cases :
    ∀ {A : Type} (ap : A → A → Bool),
      (∀ a b : A, Opt.approx ap (some a) (some b) = ap a b) ∧
      Opt.approx ap none none = true ∧
      (∀ a : A, Opt.approx ap (some a) none = false ∧
        Opt.approx ap none (some a) = false) := by
  intro A ap
  exact ⟨fun a b => rfl, rfl, fun a => ⟨rfl, rfl⟩⟩

/-- C4: the assertion form fails (with the message built from the Debug
forms of the two operands joined by " != ") exactly when the boolean
comparison is false, and completes normally exactly when it is true. -/
theorem assert_approx_spec :
    ∀ {A : Type} (fmt : A → String) (ap : A → A → Bool) (a b : A),
      ((∃ msg : String, assertApprox fmt ap a b = Except.error msg) ↔ ap a b = false) ∧
      (ap a b = false →
        assertApprox fmt ap a b = Except.error (fmt a ++ " != " ++ fmt b)) ∧
      (ap a b = true → assertApprox fmt ap a b = Except.ok ()) := by
  intro A fmt ap a b
  unfold assertApprox
  cases hab : ap a b <;> simp [hab]

/-! Helper lemmas for symmetry. -/

/-- The scalar comparison pattern is symmetric at every precision and
tolerance. -/
theorem scalar_approx_symm_aux (prec : Nat) (tol : ℚ) (a b : Fl) :
    Fl.le (Fl.abs (Fl.sub prec a b)) (Fl.finite tol)
      = Fl.le (Fl.abs (Fl.sub prec b a)) (Fl.finite tol) := by
  rcases a with _ | s | p <;> rcases b with _ | t | q <;>
    (try cases s) <;> (try cases t) <;>
    simp [Fl.sub, Fl.abs, Fl.le]
  rw [show q - p = -(p - q) by ring, roundQ_neg, abs_neg]

/-- Zipped element-wise comparison is symmetric when the element comparison
is. -/
theorem slice_zip_all_symm {A : Type} (ap : A → A → Bool)
    (hap : ∀ a b : A, ap a b = ap b a) :
    ∀ xs ys : List A,
      ((xs.zip ys).all fun p => ap p.1 p.2)
        = ((ys.zip xs).all fun p => ap p.1 p.2) := by
  intro xs
  induction xs with
  | nil =>
    intro ys
    cases ys <;> rfl
  | cons x xs ih =>
    intro ys
    cases ys with
    | nil => rfl
    | cons y ys =>
      rw [List.zip_cons_cons, List.zip_cons_cons, List.all_cons, List.all_cons,
        ih ys, hap x y]

/-- Sequence comparison is symmetric when the element comparison is. -/
theorem slice_approx_symm_of {A : Type} (ap : A → A → Bool)
    (hap : ∀ a b : A, ap a b = ap b a) (xs ys : List A) :
    Slice.approx ap xs ys = Slice.approx ap ys xs := by
  unfold Slice.approx
  by_cases h : xs.length = ys.length
  · rw [if_neg (by omega), if_neg (by omega), slice_zip_all_symm ap hap]
  · rw [if_pos (by omega), if_pos (by omega)]

/-- Optional comparison is symmetric when the element comparison is. -/
theorem opt_approx_symm_of {A : Type} (ap : A → A → Bool)
    (hap : ∀ a b : A, ap a b = ap b a) (x y : Option A) :
    Opt.approx ap x y = Opt.approx ap y x := by
  cases x <;> cases y
  · rfl
  · rfl
  · rfl
  · exact hap _ _

/-- C7: every built-in comparison is symmetric: the two scalar float
comparisons, the sequence comparison over either scalar, and the optional
comparison over either scalar. -/
theorem builtin_approx_symm :
    (∀ a b : Fl, F32.approx a b = F32.approx b a) ∧
    (∀ a b : Fl, F64.approx a b = F64.approx b a) ∧
    (∀ xs ys : List Fl, Slice.approx F32.approx xs ys = Slice.approx F32.approx ys xs) ∧
    (∀ xs ys : List Fl, Slice.approx F64.approx xs ys = Slice.approx F64.approx ys xs) ∧
    (∀ x y : Option Fl, Opt.approx F32.approx x y = Opt.approx F32.approx y x) ∧
    (∀ x y : Option Fl, Opt.approx F64.approx x y = Opt.approx F64.approx y x) := by
  have h32 : ∀ a b : Fl, F32.approx a b = F32.approx b a :=
    fun a b => scalar_approx_symm_aux 23 tol32 a b
  have h64 : ∀ a b : Fl, F64.approx a b = F64.approx b a :=
    fun a b => scalar_approx_symm_aux 52 tol64 a b
  exact ⟨h32, h64, slice_approx_symm_of F32.approx h32,
    slice_approx_symm_of F64.approx h64, opt_approx_symm_of F32.approx h32,
    opt_approx_symm_of F64.approx h64⟩

/-- C9: the block-similarity image comparator accepts the example pair of
5-byte images differing in exactly one position (4 of 5 positions match,
80%) and rejects the pair differing in exactly two positions (3 of 5
positions match, 60%). -/
theorem image_approx_examples :
    Image.approx [1, 2, 3, 4, 5] [1, 2, 3, 4, 6] = true ∧
    Image.approx [1, 2, 3, 4, 5] [1, 2, 3, 5, 6] = false := by
  have h45 : roundQ 23 (4 / 5) = 13421773 / 16777216 := lit08_eq
  constructor
  · have hc : ((([1, 2, 3, 4, 5] : Image).zip [1, 2, 3, 4, 6]).filter
        fun p => p.1 == p.2).length = 4 := rfl
    have hl : ([1, 2, 3, 4, 5] : Image).length = 5 := rfl
    unfold Image.approx
    rw [hc, hl]
    simp only [Nat.cast_ofNat, roundQ23_4, roundQ23_5, Fl.div]
    rw [if_neg (by norm_num)]
    simp only [Fl.ge, Fl.le, h45, lit08_eq, decide_eq_true_eq]
    norm_num
  · have hc : ((([1, 2, 3, 4, 5] : Image).zip [1, 2, 3, 5, 6]).filter
        fun p => p.1 == p.2).length = 3 := rfl
    have hl : ([1, 2, 3, 4, 5] : Image).length = 5 := rfl
    unfold Image.approx
    rw [hc, hl]
    simp only [Nat.cast_ofNat, roundQ23_3, roundQ23_5, Fl.div]
    rw [if_neg (by norm_num)]
    simp only [Fl.ge, Fl.le, roundQ23_35, lit08_eq, decide_eq_false_iff_not]
    norm_num

/-- C10: an image holding zero bytes is approx-equal to nothing, not even
an identical empty copy: the match ratio is the IEEE quotient `0 / 0`,
which is NaN, and the `>=` comparison on NaN yields false. -/
theorem image_approx_empty_false :
    (∀ b : Image, Image.approx [] b = false) ∧
    Image.approx [] [] = false ∧
    Fl.div 23 (Fl.finite 0) (Fl.finite 0) = Fl.nan := by
  have hdiv : Fl.div 23 (Fl.finite 0) (Fl.finite 0) = Fl.nan := by
    simp [Fl.div]
  have hall : ∀ b : Image, Image.approx [] b = false := by
    intro b
    unfold Image.approx
    have hz : (([] : Image).zip b) = [] := rfl
    rw [hz]
    simp only [List.filter_nil, List.length_nil, Nat.cast_zero, roundQ_zero, hdiv,
      Fl.ge, Fl.le]
  exact ⟨hall, hall [], hdiv⟩
